import Mathlib

/-
Verification of the `ashe` data pipeline (ONS API extraction, transformation and
directory helpers).  Each Python function that the specification talks about is
shallowly embedded as an executable Lean definition; network traffic performed
through `requests.get` is modelled by explicit response functions ("nets") that
the embedded functions consume, and every request that the code issues is
recorded in the returned trace so that statements about which URLs are fetched
can be made precise.
-/

namespace Ashe

/-- A JSON document returned by an ONS list endpoint: it carries a
`total_count` field and an `items` array (`src/get_data/initial_api_extraction.py`
reads exactly these two fields of such documents). -/
structure ListDoc (α : Type) where
  total_count : Nat
  items : List α
deriving DecidableEq, Repr

/-- Outcome of a single `requests.get` call: either the connection fails
(`requests` raises) or a response with a status code and a parsed JSON body
comes back. -/
inductive HttpResult (β : Type) where
  | connErr : HttpResult β
  | response : Nat → β → HttpResult β
deriving DecidableEq, Repr

/-- Message raised by the source on a failed connection
(`raise Exception("Failed to connect to ONS API endpoint. ...")`). -/
def connectionErrorMsg : String :=
  "Failed to connect to ONS API endpoint. Please check the URL or your internet connection."

/-- Message raised by the source on a non-200 status code; the source
interpolates the numeric code, which is irrelevant to every claim, so a fixed
message stands for the whole family. -/
def statusErrorMsg : String := "Error: non-200 status code"

/-- Embedding of `query_ons_api` (src/get_data/initial_api_extraction.py,
lines 11-61).  `net lim` is the response to `requests.get(url, params)` where
`lim = none` is the unparameterized request and `lim = some n` carries
`params = {"limit": n}`.  The first component of the result is the trace of
requests issued, in order; the second is the returned JSON document or the
raised exception. -/
def query_ons_api (net : Option Nat → HttpResult (ListDoc α)) :
    List (Option Nat) × Except String (ListDoc α) :=
  match net none with
  | .connErr => ([none], .error connectionErrorMsg)
  | .response status json =>
    if status != 200 then ([none], .error statusErrorMsg)
    else
      let items := json.total_count
      match net (some items) with
      | .connErr => ([none, some items], .error connectionErrorMsg)
      | .response status2 json2 =>
        if status2 != 200 then ([none, some items], .error statusErrorMsg)
        else ([none, some items], .ok json2)

/-- Model of an ONS list endpoint as the specification describes it: the
server holds `allItems` and answers a request by reporting the full count in
`total_count` while truncating `items` to the requested limit, or to a bounded
default page when no limit is passed. -/
structure OnsEndpoint (α : Type) where
  allItems : List α
  defaultLimit : Nat
deriving DecidableEq, Repr

/-- The JSON document the modelled endpoint returns for a given limit
parameter. -/
def OnsEndpoint.respond (e : OnsEndpoint α) (lim : Option Nat) : ListDoc α :=
  { total_count := e.allItems.length
    items := e.allItems.take (lim.getD e.defaultLimit) }

/-- The modelled endpoint as a net: every request succeeds with status 200. -/
def OnsEndpoint.net (e : OnsEndpoint α) (lim : Option Nat) : HttpResult (ListDoc α) :=
  .response 200 (e.respond lim)

/-- C1: against any paged endpoint, `query_ons_api` first issues the
unparameterized request, reads its `total_count` field `N`, reissues the
request with `limit = N`, and returns the second response's document; that
document carries exactly `N` items (its `total_count` equals `N`), and when
`N = 0` the returned item list is empty and no error is raised. -/
theorem query_ons_api_count_then_fetch_all (α : Type) (e : OnsEndpoint α) :
    (query_ons_api e.net).1 = [none, some ((e.respond none).total_count)] ∧
    (query_ons_api e.net).2 = .ok (e.respond (some ((e.respond none).total_count))) ∧
    (e.respond (some ((e.respond none).total_count))).total_count
      = (e.respond none).total_count ∧
    (e.respond (some ((e.respond none).total_count))).items.length
      = (e.respond none).total_count ∧
    ((e.respond none).total_count = 0 →
      (e.respond (some ((e.respond none).total_count))).items = []) := by
  refine ⟨rfl, rfl, rfl, ?_, ?_⟩
  · simp [OnsEndpoint.respond]
  · intro h
    simp only [OnsEndpoint.respond] at h ⊢
    simp [List.length_eq_zero.mp h]

/-! ### Keyword matching

`get_ashe_datasets` joins the search terms with `"|"` and hands the result to
`pandas.Series.str.contains(..., case = False, na = False)`, which performs a
case-insensitive *regular-expression* search.  The patterns reachable from
this repository are alternations of literal terms, so the embedding models
Python's `re.search` on the fragment built from literal characters, the `'.'`
wildcard and top-level `'|'` alternation; terms containing other regex
metacharacters fall outside the model. -/

/-- Split a character list on a separator character, keeping empty chunks,
exactly as a regex alternation is decomposed. -/
def splitOnChar (sep : Char) : List Char → List (List Char)
  | [] => [[]]
  | c :: cs =>
    if c == sep then [] :: splitOnChar sep cs
    else
      match splitOnChar sep cs with
      | [] => [[c]]
      | a :: as => (c :: a) :: as

theorem splitOnChar_ne_nil (sep : Char) (l : List Char) : splitOnChar sep l ≠ [] := by
  cases l with
  | nil => simp [splitOnChar]
  | cons c cs =>
    simp only [splitOnChar]
    by_cases h : c == sep
    · simp [h]
    · simp only [h, if_false]
      cases hs : splitOnChar sep cs <;> simp

theorem splitOnChar_append (sep : Char) (xs ys : List Char) :
    splitOnChar sep (xs ++ sep :: ys) = splitOnChar sep xs ++ splitOnChar sep ys := by
  induction xs with
  | nil => simp [splitOnChar]
  | cons c cs ih =>
    simp only [List.cons_append, splitOnChar]
    by_cases h : c == sep
    · simp [h, ih]
    · obtain ⟨a, as, ha⟩ : ∃ a as, splitOnChar sep cs = a :: as := by
        cases hs : splitOnChar sep cs with
        | nil => exact absurd hs (splitOnChar_ne_nil sep cs)
        | cons a as => exact ⟨a, as, rfl⟩
      simp [h, List.append_eq, ih, ha]

/-- One alternative of the pattern matched against a prefix of the text:
`'.'` matches any character, other pattern characters match up to case
(`re.IGNORECASE`). -/
def litMatchAt : List Char → List Char → Bool
  | [], _ => true
  | _ :: _, [] => false
  | p :: ps, c :: cs => (p == '.' || p.toLower == c.toLower) && litMatchAt ps cs

/-- `re.search` of one alternative: the alternative matches at some position
of the text. -/
def litSearch (p : List Char) : List Char → Bool
  | [] => litMatchAt p []
  | c :: cs => litMatchAt p (c :: cs) || litSearch p cs

/-- Python's `re.search(pattern, s, re.IGNORECASE)` for patterns in the
modelled fragment, as `str.contains(pattern, case = False)` evaluates it. -/
def reSearch (pattern s : String) : Bool :=
  (splitOnChar '|' pattern.toList).any (fun a => litSearch a s.toList)

/-- Python's `"|".join(search_terms)` (src/get_data/initial_api_extraction.py,
line 96). -/
def joinBar : List String → String
  | [] => ""
  | [t] => t
  | t :: ts => t ++ "|" ++ joinBar ts

/-- Case-insensitive *substring* containment — the matching notion the
specification's words describe.  No wildcard: every character of the needle is
literal. -/
def plainMatchAt : List Char → List Char → Bool
  | [], _ => true
  | _ :: _, [] => false
  | p :: ps, c :: cs => (p.toLower == c.toLower) && plainMatchAt ps cs

def plainSearch (p : List Char) : List Char → Bool
  | [] => plainMatchAt p []
  | c :: cs => plainMatchAt p (c :: cs) || plainSearch p cs

/-- The needle occurs in the haystack as a case-insensitive substring. -/
def containsSubstrCI (needle hay : String) : Bool :=
  plainSearch needle.toList hay.toList

/-- Characters that are special to Python regular expressions.  A term free
of them is matched by `re.search` exactly as a literal substring. -/
def regexMetaChars : List Char :=
  ['.', '|', '*', '+', '?', '[', ']', '(', ')', '\x7b', '\x7d', '^', '$', '\\']

/-- The term contains no regex metacharacter. -/
def noRegexMeta (t : String) : Bool :=
  t.toList.all (fun c => !(regexMetaChars.contains c))

theorem string_toList_append (s t : String) : (s ++ t).toList = s.toList ++ t.toList :=
  String.data_append s t

/-- Searching the joined pattern is the union of searching each term: the
alternation distributes over the join. -/
theorem reSearch_joinBar (k : String) :
    ∀ (ts : List String), ts ≠ [] →
      reSearch (joinBar ts) k = ts.any (fun t => reSearch t k)
  | [], h => absurd rfl h
  | [t], _ => by simp [reSearch, joinBar]
  | t :: t' :: ts, _ => by
    have ih := reSearch_joinBar k (t' :: ts) (by simp)
    simp only [joinBar, reSearch, string_toList_append]
    have hbar : (("|" : String)).toList = ['|'] := rfl
    rw [List.append_assoc, hbar, List.singleton_append, splitOnChar_append, List.any_append]
    simp only [reSearch] at ih
    rw [ih]
    simp [reSearch]

theorem any_perm {α : Type} (f : α → Bool) {l l' : List α} (h : l.Perm l') :
    l.any f = l'.any f := by
  induction h with
  | nil => rfl
  | cons x _ ih => simp [List.any_cons, ih]
  | swap x y l => simp [List.any_cons, Bool.or_left_comm]
  | trans _ _ ih1 ih2 => exact ih1.trans ih2

/-- When a term is free of regex metacharacters (in particular of `'.'` and
`'|'`), regex search of that single term coincides with case-insensitive
substring containment. -/
theorem reSearch_eq_substr_of_noMeta (t s : String) (h : noRegexMeta t = true) :
    reSearch t s = containsSubstrCI t s := by
  have hnodot : ∀ c ∈ t.toList, c ≠ '.' ∧ c ≠ '|' := by
    intro c hc
    have h1 := (List.all_eq_true.mp h) c hc
    constructor <;> rintro rfl <;> exact absurd h1 (by decide)
  have hsplit : splitOnChar '|' t.toList = [t.toList] := by
    have : ∀ (l : List Char), (∀ c ∈ l, c ≠ '|') → splitOnChar '|' l = [l] := by
      intro l hl
      induction l with
      | nil => rfl
      | cons c cs ih =>
        have hc : (c == '|') = false := by
          simp [hl c (List.mem_cons_self c cs)]
        simp only [splitOnChar, hc, if_false]
        rw [ih (fun d hd => hl d (List.mem_cons_of_mem c hd))]
        rfl
    exact this _ (fun c hc => (hnodot c hc).2)
  have hmatch : ∀ (p sl : List Char), (∀ c ∈ p, c ≠ '.') →
      litMatchAt p sl = plainMatchAt p sl := by
    intro p
    induction p with
    | nil => intro sl _; rfl
    | cons a ps ih =>
      intro sl hp
      cases sl with
      | nil => rfl
      | cons c cs =>
        have ha : (a == '.') = false := by
          simp [hp a (List.mem_cons_self a ps)]
        simp only [litMatchAt, plainMatchAt, ha, Bool.false_or]
        rw [ih cs (fun d hd => hp d (List.mem_cons_of_mem a hd))]
  have hsearch : ∀ (sl : List Char),
      litSearch t.toList sl = plainSearch t.toList sl := by
    intro sl
    induction sl with
    | nil =>
      simp only [litSearch, plainSearch]
      exact hmatch _ _ (fun c hc => (hnodot c hc).1)
    | cons c cs ih =>
      simp only [litSearch, plainSearch, ih]
      rw [hmatch _ _ (fun c hc => (hnodot c hc).1)]
  simp only [reSearch, containsSubstrCI, hsplit, List.any_cons, List.any_nil, Bool.or_false]
  exact hsearch _

/-! ### Dataset rows and deduplication -/

/-- A row of the datasets table: the fields of an ONS dataset item that the
code reads (`id`, `keywords`, and `links.latest_version.href`, the last used
only by `download_inflation`). -/
structure DatasetRow where
  id : String
  keywords : List String
  latest_version_href : Option String
deriving DecidableEq, Repr

/-- `DataFrame.drop_duplicates(subset = key, keep = "first")`: keep each row
whose key has not been seen yet.  `seen` accumulates the keys already kept. -/
def dedupSeen (key : α → String) (seen : List String) : List α → List α
  | [] => []
  | r :: rs =>
    if key r ∈ seen then dedupSeen key seen rs
    else r :: dedupSeen key (key r :: seen) rs

/-- `drop_duplicates(subset = key)` as used on the dataset and version
tables. -/
def dedupByKey (key : α → String) (l : List α) : List α := dedupSeen key [] l

theorem mem_of_mem_dedupSeen (key : α → String) :
    ∀ (l : List α) (seen : List String) (x : α), x ∈ dedupSeen key seen l → x ∈ l := by
  intro l
  induction l with
  | nil => intro seen x hx; simp [dedupSeen] at hx
  | cons r rs ih =>
    intro seen x hx
    simp only [dedupSeen] at hx
    by_cases h : key r ∈ seen
    · rw [if_pos h] at hx
      exact List.mem_cons_of_mem r (ih seen x hx)
    · rw [if_neg h] at hx
      rcases List.mem_cons.mp hx with h1 | h1
      · exact h1 ▸ List.mem_cons_self r rs
      · exact List.mem_cons_of_mem r (ih _ x h1)

theorem dedupSeen_key_spec (key : α → String) :
    ∀ (l : List α) (seen : List String),
      ((dedupSeen key seen l).map key).Nodup ∧
        ∀ x ∈ dedupSeen key seen l, key x ∉ seen := by
  intro l
  induction l with
  | nil => intro seen; simp [dedupSeen]
  | cons r rs ih =>
    intro seen
    simp only [dedupSeen]
    by_cases h : key r ∈ seen
    · rw [if_pos h]; exact ih seen
    · rw [if_neg h]
      obtain ⟨hnd, havoid⟩ := ih (key r :: seen)
      refine ⟨?_, ?_⟩
      · simp only [List.map_cons, List.nodup_cons]
        refine ⟨?_, hnd⟩
        intro hmem
        obtain ⟨x, hx, hkx⟩ := List.mem_map.mp hmem
        exact (havoid x hx) (hkx ▸ List.mem_cons_self _ _)
      · intro x hx
        rcases List.mem_cons.mp hx with h1 | h1
        · exact h1 ▸ h
        · exact fun hc => (havoid x h1) (List.mem_cons_of_mem _ hc)

theorem dedupByKey_key_nodup (key : α → String) (l : List α) :
    ((dedupByKey key l).map key).Nodup :=
  (dedupSeen_key_spec key l []).1

theorem dedupSeen_eq_self (key : α → String) :
    ∀ (l : List α) (seen : List String), (l.map key).Nodup →
      (∀ x ∈ l, key x ∉ seen) → dedupSeen key seen l = l := by
  intro l
  induction l with
  | nil => intro seen _ _; rfl
  | cons r rs ih =>
    intro seen hnd havoid
    simp only [List.map_cons, List.nodup_cons] at hnd
    simp only [dedupSeen, if_neg (havoid r (List.mem_cons_self r rs))]
    congr 1
    refine ih _ hnd.2 ?_
    intro x hx
    intro hc
    rcases List.mem_cons.mp hc with h1 | h1
    · exact hnd.1 (h1 ▸ List.mem_map_of_mem key hx)
    · exact havoid x (List.mem_cons_of_mem r hx) h1

theorem dedupByKey_eq_self (key : α → String) (l : List α)
    (hnd : (l.map key).Nodup) : dedupByKey key l = l :=
  dedupSeen_eq_self key l [] hnd (by simp)

theorem mem_map_key_dedupSeen (key : α → String) (i : String) :
    ∀ (l : List α) (seen : List String),
      i ∈ (dedupSeen key seen l).map key ↔ i ∈ l.map key ∧ i ∉ seen := by
  intro l
  induction l with
  | nil => intro seen; simp [dedupSeen]
  | cons r rs ih =>
    intro seen
    simp only [dedupSeen]
    by_cases h : key r ∈ seen
    · rw [if_pos h, ih seen]
      simp only [List.map_cons, List.mem_cons]
      constructor
      · rintro ⟨h1, h2⟩; exact ⟨Or.inr h1, h2⟩
      · rintro ⟨h1 | h1, h2⟩
        · exact absurd (h1 ▸ h) h2
        · exact ⟨h1, h2⟩
    · rw [if_neg h]
      simp only [List.map_cons, List.mem_cons, ih (key r :: seen)]
      constructor
      · rintro (h1 | ⟨h1, h2⟩)
        · exact ⟨Or.inl h1, h1 ▸ h⟩
        · exact ⟨Or.inr h1, fun hc => h2 (Or.inr hc)⟩
      · rintro ⟨h1 | h1, h2⟩
        · exact Or.inl h1
        · by_cases hir : i = key r
          · exact Or.inl hir
          · exact Or.inr ⟨h1, by simp [hir, h2]⟩

theorem mem_map_key_dedupByKey (key : α → String) (i : String) (l : List α) :
    i ∈ (dedupByKey key l).map key ↔ i ∈ l.map key := by
  rw [dedupByKey, mem_map_key_dedupSeen]
  simp

/-! ### The two implementations of `get_ashe_datasets` -/

/-- The keyword filter of `get_ashe_datasets`
(src/get_data/initial_api_extraction.py, lines 93-101): join the search terms
into one regex alternation, explode the `keywords` column (each exploded row
carries a single keyword in that cell), keep the rows whose keyword the
pattern matches (`case = False, na = False`), and drop duplicate `id`s keeping
the first match. -/
def ashe_filter (search_terms : List String) (items : List DatasetRow) : List DatasetRow :=
  let pattern := joinBar search_terms
  let unnested := items.flatMap (fun r => r.keywords.map (fun k => (r, k)))
  let kept := (unnested.filter (fun p => reSearch pattern p.2)).map
    (fun p => { p.1 with keywords := [p.2] })
  dedupByKey DatasetRow.id kept

/-- Embedding of `get_ashe_datasets` from `src/get_data/initial_api_extraction.py`
(lines 65-103): query the datasets endpoint through `query_ons_api` and filter
the items of the returned (second) document. -/
def get_ashe_datasets (net : Option Nat → HttpResult (ListDoc DatasetRow))
    (search_terms : List String) :
    List (Option Nat) × Except String (List DatasetRow) :=
  let q := query_ons_api net
  (q.1, q.2.map (fun doc => ashe_filter search_terms doc.items))

/-- Embedding of `get_ashe_datasets` from `src/get-data/initial_api_extraction.py`
(lines 9-72).  This variant inlines the two requests; after the second,
limit-parameterized request it only checks the status code and builds its
DataFrame from `dataset_json["items"]`, which still holds the body of the
FIRST response — the second response is never parsed. -/
def get_ashe_datasets_legacy (net : Option Nat → HttpResult (ListDoc DatasetRow))
    (search_terms : List String) :
    List (Option Nat) × Except String (List DatasetRow) :=
  match net none with
  | .connErr => ([none], .error connectionErrorMsg)
  | .response status json =>
    if status != 200 then ([none], .error statusErrorMsg)
    else
      let items := json.total_count
      match net (some items) with
      | .connErr => ([none, some items], .error connectionErrorMsg)
      | .response status2 _json2 =>
        if status2 != 200 then ([none, some items], .error statusErrorMsg)
        else ([none, some items], .ok (ashe_filter search_terms json.items))

/-- Closed instance of `query_ons_api_count_then_fetch_all`: the empty
endpoint yields an empty item list. -/
theorem query_ons_api_count_then_fetch_all_witness :
    (OnsEndpoint.respond { allItems := ([] : List Nat), defaultLimit := 3 }
      (some ((OnsEndpoint.respond { allItems := ([] : List Nat), defaultLimit := 3 }
        none).total_count))).items = [] :=
  (query_ons_api_count_then_fetch_all Nat
    { allItems := [], defaultLimit := 3 }).2.2.2.2 rfl

/-- A one-dataset collection whose only keyword is `"abc"`. -/
def dotItems : List DatasetRow :=
  [{ id := "d1", keywords := ["abc"], latest_version_href := none }]

/-- C3 counterexample: with the search-term list `["a.c"]` the code keeps
dataset `d1` — the `'.'` is a regex wildcard matching `'b'` — although no
keyword of `d1` contains `"a.c"` as a case-insensitive substring.  The
claimed substring semantics is therefore wrong for general term lists. -/
theorem get_ashe_datasets_regex_not_substring_cex :
    (ashe_filter ["a.c"] dotItems).map DatasetRow.id = ["d1"] ∧
    (["abc"].any (fun k => containsSubstrCI "a.c" k)) = false := by
  exact ⟨rfl, rfl⟩

/-- C3 (amended): the filter interprets the joined terms as one
case-insensitive regex alternation.  The output table is identical for every
ordering of the term list; the filter is idempotent; a dataset id is kept
exactly when some keyword of some row with that id matches the joined
pattern, which for a nonempty term list is the union over the individual
terms; and for terms free of regex metacharacters the match is exactly
case-insensitive substring containment. -/
theorem ashe_filter_union_perm_idempotent
    (items : List DatasetRow) (ts ts' : List String) (hperm : ts.Perm ts') :
    ashe_filter ts items = ashe_filter ts' items ∧
    ashe_filter ts (ashe_filter ts items) = ashe_filter ts items ∧
    (∀ i : String, i ∈ (ashe_filter ts items).map DatasetRow.id ↔
      ∃ r ∈ items, r.id = i ∧ ∃ k ∈ r.keywords, reSearch (joinBar ts) k = true) ∧
    (ts ≠ [] → ∀ k, reSearch (joinBar ts) k = ts.any (fun t => reSearch t k)) ∧
    (∀ t s : String, noRegexMeta t = true → reSearch t s = containsSubstrCI t s) := by
  have hsr : ∀ k, reSearch (joinBar ts) k = reSearch (joinBar ts') k := by
    rcases eq_or_ne ts [] with h0 | h0
    · subst h0
      have h0' : ts' = [] := hperm.symm.eq_nil
      subst h0'
      intro k; rfl
    · have h0' : ts' ≠ [] := by
        intro hh
        exact h0 ((hh ▸ hperm).eq_nil)
      intro k
      rw [reSearch_joinBar k ts h0, reSearch_joinBar k ts' h0',
        any_perm (fun t => reSearch t k) hperm]
  have hgood : ∀ r ∈ ashe_filter ts items,
      ∃ k, r.keywords = [k] ∧ reSearch (joinBar ts) k = true := by
    intro r hr
    have hr' := mem_of_mem_dedupSeen DatasetRow.id _ [] r hr
    obtain ⟨p, hp1, hp2⟩ := List.mem_map.mp hr'
    have hp3 := List.mem_filter.mp hp1
    exact ⟨p.2, by rw [← hp2], hp3.2⟩
  have hre : ∀ (l : List DatasetRow),
      (∀ r ∈ l, ∃ k, r.keywords = [k] ∧ reSearch (joinBar ts) k = true) →
      ((l.flatMap (fun r => r.keywords.map (fun k => (r, k)))).filter
        (fun p => reSearch (joinBar ts) p.2)).map
        (fun p => { p.1 with keywords := [p.2] }) = l := by
    intro l
    induction l with
    | nil => intro _; rfl
    | cons r rs ih =>
      intro hl
      obtain ⟨k, hk, hs⟩ := hl r (List.mem_cons_self r rs)
      have hrr : ({ r with keywords := [k] } : DatasetRow) = r := by
        cases r with
        | mk i kw lv =>
          simp only at hk
          rw [hk]
      simp only [List.flatMap_cons, hk, List.map_cons, List.map_nil,
        List.filter_append, List.filter_cons, hs, List.filter_nil, if_true,
        List.map_append, List.singleton_append, hrr]
      rw [ih (fun x hx => hl x (List.mem_cons_of_mem r hx))]
  refine ⟨?_, ?_, ?_, fun hne k => reSearch_joinBar k ts hne,
    fun t s hm => reSearch_eq_substr_of_noMeta t s hm⟩
  · simp only [ashe_filter]
    rw [List.filter_congr (fun p _ => hsr p.2)]
  · simp only [ashe_filter]
    have hinner := hre (ashe_filter ts items) hgood
    simp only [ashe_filter] at hinner
    rw [hinner]
    exact dedupByKey_eq_self DatasetRow.id _ (dedupByKey_key_nodup DatasetRow.id _)
  · intro i
    simp only [ashe_filter]
    rw [mem_map_key_dedupByKey]
    constructor
    · intro hmm
      obtain ⟨r', hr', hid⟩ := List.mem_map.mp hmm
      obtain ⟨p, hp1, hp2⟩ := List.mem_map.mp hr'
      obtain ⟨hpu, hps⟩ := List.mem_filter.mp hp1
      obtain ⟨r, hr, hpr⟩ := List.mem_flatMap.mp hpu
      obtain ⟨k, hk, hpk⟩ := List.mem_map.mp hpr
      refine ⟨r, hr, ?_, k, hk, ?_⟩
      · rw [← hid, ← hp2, ← hpk]
      · rw [← hpk] at hps
        exact hps
    · rintro ⟨r, hr, hid, k, hk, hsk⟩
      refine List.mem_map.mpr ⟨{ r with keywords := [k] }, ?_, hid⟩
      refine List.mem_map.mpr ⟨(r, k), ?_, rfl⟩
      refine List.mem_filter.mpr ⟨?_, hsk⟩
      exact List.mem_flatMap.mpr ⟨r, hr, List.mem_map.mpr ⟨k, hk, rfl⟩⟩

/-- Witness for `ashe_filter_union_perm_idempotent`: reordering the default
term list leaves the filtered table unchanged on a concrete collection. -/
theorem ashe_filter_union_perm_idempotent_witness :
    ashe_filter ["ashe", "earnings"] dotItems
      = ashe_filter ["earnings", "ashe"] dotItems :=
  (ashe_filter_union_perm_idempotent dotItems ["ashe", "earnings"]
    ["earnings", "ashe"] (by decide)).1

/-- First dataset of the C9 counterexample endpoint. -/
def cexRow1 : DatasetRow := { id := "d1", keywords := ["ashe"], latest_version_href := none }

/-- Second dataset of the C9 counterexample endpoint. -/
def cexRow2 : DatasetRow := { id := "d2", keywords := ["ashe"], latest_version_href := none }

/-- An endpoint whose default page holds one of its two items. -/
def cexEndpoint : OnsEndpoint DatasetRow :=
  { allItems := [cexRow1, cexRow2], defaultLimit := 1 }

/-- C9 counterexample: against an endpoint whose unparameterized response is
truncated to one item, the legacy `get-data` implementation returns only the
first dataset while the `get_data` implementation returns both — they are not
extensionally equal, and the legacy variant does not build its result from
the second, limit-parameterized response. -/
theorem get_ashe_datasets_impls_differ_cex :
    (get_ashe_datasets_legacy cexEndpoint.net ["ashe"]).2 = .ok [cexRow1] ∧
    (get_ashe_datasets cexEndpoint.net ["ashe"]).2 = .ok [cexRow1, cexRow2] ∧
    ([cexRow1] : List DatasetRow) ≠ [cexRow1, cexRow2] :=
  ⟨rfl, rfl, by decide⟩

/-- C9 (amended): both implementations issue the same two requests, but the
legacy variant filters the first, default-bounded page while the current one
filters the complete second page; the two agree exactly when the default page
already contains every item. -/
theorem get_ashe_datasets_legacy_first_page
    (e : OnsEndpoint DatasetRow) (ts : List String) :
    get_ashe_datasets_legacy e.net ts
      = ([none, some e.allItems.length],
          .ok (ashe_filter ts (e.allItems.take e.defaultLimit))) ∧
    get_ashe_datasets e.net ts
      = ([none, some e.allItems.length], .ok (ashe_filter ts e.allItems)) ∧
    (e.allItems.length ≤ e.defaultLimit →
      get_ashe_datasets_legacy e.net ts = get_ashe_datasets e.net ts) := by
  have h1 : get_ashe_datasets_legacy e.net ts
      = ([none, some e.allItems.length],
          .ok (ashe_filter ts (e.allItems.take e.defaultLimit))) := rfl
  have h2 : get_ashe_datasets e.net ts
      = ([none, some e.allItems.length], .ok (ashe_filter ts e.allItems)) := by
    simp [get_ashe_datasets, query_ons_api, OnsEndpoint.net, OnsEndpoint.respond,
      Except.map, List.take_length]
  refine ⟨h1, h2, fun hle => ?_⟩
  rw [h1, h2, List.take_of_length_le hle]

/-- Witness for `get_ashe_datasets_legacy_first_page`: with a default page
large enough for the whole collection the two implementations agree. -/
theorem get_ashe_datasets_legacy_first_page_witness :
    get_ashe_datasets_legacy
        (OnsEndpoint.net { allItems := [cexRow1], defaultLimit := 5 }) ["ashe"]
      = get_ashe_datasets
        (OnsEndpoint.net { allItems := [cexRow1], defaultLimit := 5 }) ["ashe"] :=
  (get_ashe_datasets_legacy_first_page
    { allItems := [cexRow1], defaultLimit := 5 } ["ashe"]).2.2 (by decide)

/-! ### Directory navigation -/

/-- Python error classes raised by the embedded functions. -/
inductive PyErr where
  | nameError : String → PyErr
  | runtimeError : String → PyErr
deriving DecidableEq, Repr

/-- Render a raised error the way the calling code observes it. -/
def pyErrMsg : PyErr → String
  | .nameError v => "NameError: " ++ v
  | .runtimeError m => "RuntimeError: " ++ m

/-- The scope in which the body of `find_project_root` resolves names: the
only local binding is the parameter `marker_folder`, and neither the module
globals (`os`) nor the builtins bind a name `marker`. -/
def localScope (marker_folder : String) : List (String × String) :=
  [("marker_folder", marker_folder)]

/-- Python name resolution: an identifier bound in no enclosing scope raises
`NameError`. -/
def lookupName (env : List (String × String)) (x : String) : Except PyErr String :=
  match env.lookup x with
  | some v => .ok v
  | none => .error (.nameError x)

/-- The `while True` loop of `find_project_root`: step to the parent
directory (`os.path.dirname` is `dropLast` on the component list), return the
parent once it contains the marker folder, and raise `RuntimeError` on
reaching the filesystem root.  `fs path m` holds when directory `path`
contains an entry named `m`. -/
def rootLoop (fs : List String → String → Bool) (marker : String)
    (path : List String) : Except PyErr (List String) :=
  let parent := path.dropLast
  if fs parent marker then .ok parent
  else if hstop : parent.dropLast = parent then
    .error (.runtimeError
      "Project root not found. Please ensure specified marker folder exists.")
  else rootLoop fs marker parent
termination_by path.length
decreasing_by
  show path.dropLast.length < path.length
  have hp : path ≠ [] := by
    intro hh
    apply hstop
    show path.dropLast.dropLast = path.dropLast
    rw [hh]
    rfl
  rw [List.length_dropLast]
  exact Nat.sub_lt (List.length_pos.mpr hp) Nat.one_pos

/-- Embedding of `find_project_root` (src/utils/directory_navigation.py,
lines 9-36).  `start` is `os.path.abspath(__file__)` as a component list.
The loop body evaluates `os.path.join(path, marker)`, dereferencing the name
`marker` — the parameter is called `marker_folder` — so the very first
iteration resolves a name no scope binds; the embedding performs that
resolution before entering the loop, which is observationally the same. -/
def find_project_root (fs : List String → String → Bool) (start : List String)
    (marker_folder : String) : Except PyErr (List String) :=
  match lookupName (localScope marker_folder) "marker" with
  | .error e => .error e
  | .ok marker => rootLoop fs marker start

/-- C10: `find_project_root` references the undefined name `marker`, so for
every filesystem, start path and `marker_folder` argument it raises
`NameError` on the first loop iteration; it never returns an ancestor
directory and never raises the documented `RuntimeError`. -/
theorem find_project_root_always_nameerror
    (fs : List String → String → Bool) (start : List String) (marker_folder : String) :
    find_project_root fs start marker_folder
      = .error (.nameError "marker") := rfl

/-! ### Observation downloads -/

/-- A dimension entry of a version row (`{"name": ..., "href": ...}`). -/
structure DimRef where
  name : Option String
  href : Option String
deriving DecidableEq, Repr

/-- A row of the versions table, restricted to the fields the code reads.
The `downloads` cell is a dict of which only the `csv` entry matters; the
entry is identified with its `href`, and `downloads_csv = none` models a
dict without a `csv` key. -/
structure VersionRow where
  id : String
  dataset_id : String
  version : Nat
  downloads_csv : Option String
  dimensions : List DimRef
deriving DecidableEq, Repr

/-- State of a download batch: the requests issued in order, the files
written as (path, bytes) pairs, and the exception raised, if any. -/
structure DLState where
  requested : List String
  written : List (String × String)
  error : Option String
deriving DecidableEq, Repr

/-- Fresh download state. -/
def initDL : DLState := { requested := [], written := [], error := none }

/-- The download loop of `download_observations_from_versions`
(src/get_data/initial_api_extraction.py, lines 193-206): request each href in
turn; on status 200 write the file and continue, otherwise raise.  The bare
`except` catches the non-200 `raise` as well and re-raises it with the
connection message, so either kind of failure aborts the rest of the batch
immediately. -/
def downloadLoop (net : String → HttpResult String) :
    List (String × String) → DLState → DLState
  | [], st => st
  | (href, path) :: rest, st =>
    let st1 : DLState := { st with requested := st.requested ++ [href] }
    match net href with
    | .connErr => { st1 with error := some connectionErrorMsg }
    | .response status body =>
      if status == 200 then
        downloadLoop net rest { st1 with written := st1.written ++ [(path, body)] }
      else { st1 with error := some connectionErrorMsg }

/-- Python's `"/".join` for rendering a component path. -/
def joinSlash : List String → String
  | [] => ""
  | [t] => t
  | t :: ts => t ++ "/" ++ joinSlash ts

/-- The save path `f"{root}/bronze_files/{dataset_id}_{version}.csv"`. -/
def obsPath (root : List String) (r : VersionRow) : String :=
  joinSlash root ++ "/bronze_files/" ++ r.dataset_id ++ "_" ++ toString r.version ++ ".csv"

/-- The csv hrefs extracted for a version (lines 176-184): the rows whose
`downloads` dict has no `csv` entry contribute nothing. -/
def selected_csv_hrefs (version_id : String) (rows : List VersionRow) : List String :=
  (rows.filter (fun r => r.id == version_id)).filterMap (fun r => r.downloads_csv)

/-- Embedding of `download_observations_from_versions`
(src/get_data/initial_api_extraction.py, lines 148-206).  The selected rows'
`downloads` dicts are expanded by `apply(pd.Series)`; the resulting frame has
a `csv` column only when at least one selected dict carries a `csv` key, and
otherwise `downloads["csv"]` raises `KeyError`.  Rows whose `csv` cell is
`NaN` are dropped by the `isna` filter, the hrefs and save names are
extracted, `find_project_root()` resolves the save root, and the batch is
downloaded. -/
def download_observations_from_versions (net : String → HttpResult String)
    (fs : List String → String → Bool) (start : List String)
    (version_id : String) (rows : List VersionRow) : DLState :=
  let sel := rows.filter (fun r => r.id == version_id)
  if sel.all (fun r => r.downloads_csv.isNone) then
    { requested := [], written := [], error := some "KeyError: csv" }
  else
    let kept := sel.filter (fun r => r.downloads_csv.isSome)
    let hrefs := kept.filterMap (fun r => r.downloads_csv)
    match find_project_root fs start "bronze_files" with
    | .error e => { requested := [], written := [], error := some (pyErrMsg e) }
    | .ok root => downloadLoop net (hrefs.zip (kept.map (fun r => obsPath root r))) initDL

/-- A version row whose `downloads` dict has no `csv` entry. -/
def noCsvRow : VersionRow :=
  { id := "v1", dataset_id := "d1", version := 1, downloads_csv := none, dimensions := [] }

/-- C5 counterexample: when the single selected row has no `csv` entry in
`downloads`, the expanded frame has no `csv` column and `downloads["csv"]`
raises `KeyError` — the row is not silently filtered out and the function
does error. -/
theorem download_observations_missing_csv_keyerror_cex :
    download_observations_from_versions (fun _ => .connErr) (fun _ _ => false)
      ["root", "proj", "src", "file.py"] "v1" [noCsvRow]
      = { requested := [], written := [], error := some "KeyError: csv" } := rfl

/-- C5 (amended): when at least one selected row has a `csv` entry, the rows
lacking one are filtered out before the download stage and contribute no
download URL — every extracted href comes from a row with a `csv` entry —
and no request is ever issued for them (in the current code no request is
issued at all, because `find_project_root` raises `NameError` before the
loop); when no selected row has a `csv` entry, the column lookup raises
`KeyError` instead of filtering silently. -/
theorem download_observations_csv_filter_amended
    (net : String → HttpResult String) (fs : List String → String → Bool)
    (start : List String) (version_id : String) (rows : List VersionRow)
    (hx : (rows.filter (fun r => r.id == version_id)).any
      (fun r => r.downloads_csv.isSome) = true) :
    (∀ h ∈ selected_csv_hrefs version_id rows,
      ∃ r ∈ rows, r.id = version_id ∧ r.downloads_csv = some h) ∧
    (download_observations_from_versions net fs start version_id rows).error
      ≠ some "KeyError: csv" ∧
    (download_observations_from_versions net fs start version_id rows).requested = [] := by
  have hcond : (rows.filter (fun r => r.id == version_id)).all
      (fun r => r.downloads_csv.isNone) = false := by
    obtain ⟨r, hr, hs⟩ := List.any_eq_true.mp hx
    refine List.all_eq_false.mpr ⟨r, hr, ?_⟩
    cases hcsv : r.downloads_csv with
    | none => rw [hcsv] at hs; simp at hs
    | some v => simp [hcsv]
  have hval : download_observations_from_versions net fs start version_id rows
      = { requested := [], written := [],
          error := some (pyErrMsg (PyErr.nameError "marker")) } := by
    simp only [download_observations_from_versions, hcond, Bool.false_eq_true, if_false]
    rfl
  refine ⟨?_, ?_, ?_⟩
  · intro h hm
    obtain ⟨r, hr1, hr2⟩ := List.mem_filterMap.mp hm
    have hrf := List.mem_filter.mp hr1
    exact ⟨r, hrf.1, by simpa using hrf.2, hr2⟩
  · rw [hval]; decide
  · rw [hval]

/-- Witness for `download_observations_csv_filter_amended`: one selected row
with a csv entry alongside one without. -/
theorem download_observations_csv_filter_amended_witness :
    (∀ h ∈ selected_csv_hrefs "v1"
        [noCsvRow, { noCsvRow with downloads_csv := some "u9" }],
      ∃ r ∈ [noCsvRow, { noCsvRow with downloads_csv := some "u9" }],
        r.id = "v1" ∧ r.downloads_csv = some h) ∧
    (download_observations_from_versions (fun _ => .connErr) (fun _ _ => false)
      ["root", "file.py"] "v1"
      [noCsvRow, { noCsvRow with downloads_csv := some "u9" }]).error
      ≠ some "KeyError: csv" ∧
    (download_observations_from_versions (fun _ => .connErr) (fun _ _ => false)
      ["root", "file.py"] "v1"
      [noCsvRow, { noCsvRow with downloads_csv := some "u9" }]).requested = [] :=
  download_observations_csv_filter_amended (fun _ => .connErr) (fun _ _ => false)
    ["root", "file.py"] "v1" [noCsvRow, { noCsvRow with downloads_csv := some "u9" }]
    (by decide)

/-- Net for the C7 evaluation: the first URL succeeds, the second fails with
a 500 status, the third would succeed if it were ever requested. -/
def c7net : String → HttpResult String := fun u =>
  if u == "u1" then .response 200 "B1"
  else if u == "u2" then .response 500 "E"
  else .response 200 "B3"

/-- A version row with a valid csv download href. -/
def csvRow : VersionRow :=
  { id := "v1", dataset_id := "d1", version := 2, downloads_csv := some "u1", dimensions := [] }

/-- C7: on the failing input, `download_observations_from_versions` raises
before any download — `find_project_root` hits the undefined name `marker` —
so even a version row with a valid csv href produces no request and no file;
and the batch loop itself (lines 193-206), run over three URLs of which the
second fails, requests only the first two, keeps the first file written, and
raises — no request is issued past the failing index. -/
theorem download_loop_fail_fast_and_function_nameerror :
    download_observations_from_versions c7net (fun _ _ => false)
      ["root", "proj", "src", "file.py"] "v1" [csvRow]
      = { requested := [], written := [],
          error := some (pyErrMsg (PyErr.nameError "marker")) } ∧
    downloadLoop c7net [("u1", "p1"), ("u2", "p2"), ("u3", "p3")] initDL
      = { requested := ["u1", "u2"], written := [("p1", "B1")],
          error := some connectionErrorMsg } := ⟨rfl, rfl⟩

/-! ### Dimension downloads -/

/-- An entry of a `links` object: a `{"href": ...}` record. -/
structure LinkEntry where
  href : Option String
deriving DecidableEq, Repr

/-- A dimension document as `pd.DataFrame(resp.json())` views it: the inner
keys of its top-level objects (among them `editions`, inside `links`) form
the frame's index.  A 404 response parsed as JSON lacks the `editions` row
exactly like any other document without it. -/
structure DimDoc where
  links : List (String × LinkEntry)
deriving DecidableEq, Repr

/-- The `editions` row of the document's frame, when the index has one
(`"editions" in r.index`). -/
def DimDoc.editionsRow (d : DimDoc) : Option LinkEntry :=
  d.links.lookup "editions"

/-- Embedding of the editions-resolution stage of
`download_dimensions_from_versions` (src/get_data/initial_api_extraction.py,
lines 244-252) for one version's dimension hrefs: fetch every href, keep the
documents whose frame has an `editions` row — the comprehension's
`if "editions" in r.index` drops the others without any print — concatenate
them (`pd.concat` raises on an empty list) and extract the edition link
hrefs.  The first component is the list of warnings printed by this stage:
there are none. -/
def resolve_dimension_hrefs (net : String → DimDoc) (hrefs : List String) :
    List String × Except String (List String) :=
  let docs := hrefs.map net
  let editionRows := docs.filterMap DimDoc.editionsRow
  if editionRows.isEmpty then
    ([], .error "No objects to concatenate")
  else
    ([], .ok (editionRows.filterMap LinkEntry.href))

/-- Net for the C2 counterexample: `h1` answers with a document lacking the
`editions` key, every other href answers with an editions link to `E`. -/
def c2net : String → DimDoc := fun h =>
  if h == "h1" then { links := [("self", { href := some "s" })] }
  else { links := [("editions", { href := some "E" })] }

/-- C2 counterexample: of two sibling dimension hrefs of one version, the
first returns a document without `editions`; the sibling is still resolved,
but the warning log of the stage is empty — the skip is silent, refuting the
claim that such an href is skipped *with a logged warning*. -/
theorem dimension_missing_editions_skipped_silently_cex :
    resolve_dimension_hrefs c2net ["h1", "h2"] = ([], .ok ["E"]) := rfl

/-- Dropping an href whose document has no `editions` row does not change the
extracted edition rows. -/
theorem filterMap_editions_erase (net : String → DimDoc) (h0 : String)
    (hno : (net h0).editionsRow = none) :
    ∀ hrefs : List String,
      (hrefs.map net).filterMap DimDoc.editionsRow
        = ((hrefs.erase h0).map net).filterMap DimDoc.editionsRow := by
  intro hrefs
  induction hrefs with
  | nil => rfl
  | cons h hs ih =>
    by_cases hh : h = h0
    · subst hh
      simp [List.erase_cons_head, List.filterMap_cons, hno]
    · simp [List.erase_cons, hh, List.filterMap_cons, ih]

/-- C2 (amended): a dimension href whose document lacks the `editions` key
(in particular a 404 whose JSON body has no such key) is skipped — removing
it changes nothing — and the sibling hrefs of the same version are still
resolved, but the skip is silent: this stage logs no warning.  Resolution
continues provided at least one sibling document carries an `editions` row;
with none, the `pd.concat` call raises instead. -/
theorem resolve_dimension_hrefs_skip_and_continue (net : String → DimDoc)
    (hrefs : List String) (h0 : String) (hmem : h0 ∈ hrefs)
    (hno : (net h0).editionsRow = none)
    (hsome : ∃ h1 ∈ hrefs, ((net h1).editionsRow).isSome = true) :
    (resolve_dimension_hrefs net hrefs).1 = [] ∧
    (resolve_dimension_hrefs net hrefs).2
      = .ok (((hrefs.map net).filterMap DimDoc.editionsRow).filterMap LinkEntry.href) ∧
    (hrefs.map net).filterMap DimDoc.editionsRow
      = ((hrefs.erase h0).map net).filterMap DimDoc.editionsRow := by
  have hne : ((hrefs.map net).filterMap DimDoc.editionsRow).isEmpty = false := by
    obtain ⟨h1, hm1, hs1⟩ := hsome
    obtain ⟨e, he⟩ := Option.isSome_iff_exists.mp hs1
    have hmemE : e ∈ (hrefs.map net).filterMap DimDoc.editionsRow :=
      List.mem_filterMap.mpr ⟨net h1, List.mem_map_of_mem net hm1, he⟩
    cases hl : (hrefs.map net).filterMap DimDoc.editionsRow with
    | nil => rw [hl] at hmemE; simp at hmemE
    | cons a as => rfl
  refine ⟨?_, ?_, filterMap_editions_erase net h0 hno hrefs⟩ <;>
    simp only [resolve_dimension_hrefs, hne, Bool.false_eq_true, if_false]

/-- Witness for `resolve_dimension_hrefs_skip_and_continue` at a concrete
net and href list. -/
theorem resolve_dimension_hrefs_skip_and_continue_witness :
    (resolve_dimension_hrefs c2net ["h9", "h1"]).1 = [] ∧
    (resolve_dimension_hrefs c2net ["h9", "h1"]).2
      = .ok (((["h9", "h1"].map c2net).filterMap DimDoc.editionsRow).filterMap
          LinkEntry.href) ∧
    (["h9", "h1"].map c2net).filterMap DimDoc.editionsRow
      = ((["h9", "h1"].erase "h1").map c2net).filterMap DimDoc.editionsRow :=
  resolve_dimension_hrefs_skip_and_continue c2net ["h9", "h1"] "h1"
    (by simp) (by rfl) ⟨"h9", by simp, by rfl⟩

/-! ### The global code-href dict and the final fetch loop -/

/-- The `links` cell of one item of an editions response: entry names mapped
to `{"href": ...}` records. -/
abbrev LinksCell := List (String × LinkEntry)

/-- `d["codes"]["href"]`: `none` when the dict has no `codes` entry or the
entry no `href` (either raises `KeyError`, caught by the `except` of lines
254-261). -/
def codesHref (d : LinksCell) : Option String :=
  match d.lookup "codes" with
  | some e => e.href
  | none => none

/-- `code_href.split("/")[5]`: the sixth slash-separated component of the
href; `none` models the `IndexError` of an out-of-range index, caught by the
same `except`. -/
def dimNameOf (href : String) : Option String :=
  ((splitOnChar '/' href.toList).map (fun cs => String.mk cs)).get? 5

/-- Python dict assignment `all_code_hrefs[code_href] = dim_name`: update the
value in place when the key is present, otherwise append the pair. -/
def insertKV (m : List (String × String)) (k v : String) : List (String × String) :=
  if m.any (fun p => p.1 == k) then
    m.map (fun p => if p.1 == k then (k, v) else p)
  else m ++ [(k, v)]

/-- Accumulation of the `all_code_hrefs` dict over the stream of link dicts
encountered across all versions (lines 253-261), together with the warnings
printed for invalid dicts. -/
def collect_code_hrefs (dicts : List LinksCell)
    (acc : List (String × String)) (log : List String) :
    List (String × String) × List String :=
  match dicts with
  | [] => (acc, log)
  | d :: ds =>
    match codesHref d with
    | some href =>
      match dimNameOf href with
      | some name => collect_code_hrefs ds (insertKV acc href name) log
      | none => collect_code_hrefs ds acc (log ++ ["[WARNING] Skipping invalid link dict"])
    | none => collect_code_hrefs ds acc (log ++ ["[WARNING] Skipping invalid link dict"])

/-- An item of a code-list document; its fields are irrelevant to every
claim. -/
structure CodeItem where
  code : String
deriving DecidableEq, Repr

/-- State of the final code-list fetch loop: hrefs queried in order, files
written as (path, dimension name) pairs, raised exception if any. -/
structure FetchState where
  requested : List String
  written : List (String × String)
  error : Option String
deriving DecidableEq, Repr

/-- Fresh fetch state. -/
def initFetch : FetchState := { requested := [], written := [], error := none }

/-- The output path `f"{root}/bronze_files/{dim_name}.csv"`: a function of
the dimension name alone (the root prefix is fixed for the whole loop). -/
def dimPath (name : String) : String := "bronze_files/" ++ name ++ ".csv"

/-- The final fetch loop of `download_dimensions_from_versions` (lines
264-271): query each dict entry's href once through `query_ons_api` and save
the items under the dimension's name; a failed query raises and aborts the
loop.  (In the shipped code the preceding `find_project_root()` call raises
`NameError` — see `find_project_root_always_nameerror`; the loop is embedded
to settle what it fetches and writes.) -/
def fetch_code_lists (net : String → Option Nat → HttpResult (ListDoc CodeItem)) :
    List (String × String) → FetchState → FetchState
  | [], st => st
  | (href, name) :: rest, st =>
    let st1 : FetchState := { st with requested := st.requested ++ [href] }
    match (query_ons_api (net href)).2 with
    | .error e => { st1 with error := some e }
    | .ok _doc =>
      fetch_code_lists net rest { st1 with written := st1.written ++ [(dimPath name, name)] }

theorem insertKV_keys_nodup (m : List (String × String)) (k v : String)
    (h : (m.map Prod.fst).Nodup) : ((insertKV m k v).map Prod.fst).Nodup := by
  unfold insertKV
  by_cases hk : m.any (fun p => p.1 == k) = true
  · rw [if_pos hk]
    have hkeys : (m.map (fun p => if p.1 == k then (k, v) else p)).map Prod.fst
        = m.map Prod.fst := by
      rw [List.map_map]
      apply List.map_congr_left
      intro p _
      by_cases hp : p.1 == k
      · simp only [Function.comp_apply, if_pos hp]
        exact (beq_iff_eq.mp hp).symm
      · have hp' : p.1 ≠ k := fun hh => hp (beq_iff_eq.mpr hh)
        simp [Function.comp_apply, hp']
    rw [hkeys]
    exact h
  · rw [if_neg hk]
    have hknot : k ∉ m.map Prod.fst := by
      intro hmem
      obtain ⟨p, hp, hpk⟩ := List.mem_map.mp hmem
      exact hk (List.any_eq_true.mpr ⟨p, hp, by simp [hpk]⟩)
    rw [List.map_append]
    simp only [List.map_cons, List.map_nil]
    exact List.Nodup.append h (List.nodup_singleton k)
      (fun a ha hb => hknot ((List.mem_singleton.mp hb) ▸ ha))

theorem collect_code_hrefs_keys_nodup :
    ∀ (dicts : List LinksCell) (acc : List (String × String)) (log : List String),
      (acc.map Prod.fst).Nodup →
      (((collect_code_hrefs dicts acc log).1).map Prod.fst).Nodup := by
  intro dicts
  induction dicts with
  | nil => intro acc log h; exact h
  | cons d ds ih =>
    intro acc log h
    cases hc : codesHref d with
    | none => simp only [collect_code_hrefs, hc]; exact ih _ _ h
    | some href =>
      cases hn : dimNameOf href with
      | none => simp only [collect_code_hrefs, hc, hn]; exact ih _ _ h
      | some name =>
        simp only [collect_code_hrefs, hc, hn]
        exact ih _ _ (insertKV_keys_nodup _ _ _ h)

theorem fetch_code_lists_requested (net : String → Option Nat → HttpResult (ListDoc CodeItem)) :
    ∀ (entries : List (String × String)) (st : FetchState),
      ∃ n, (fetch_code_lists net entries st).requested
        = st.requested ++ (entries.map Prod.fst).take n := by
  intro entries
  induction entries with
  | nil => intro st; exact ⟨0, by simp [fetch_code_lists]⟩
  | cons e rest ih =>
    intro st
    obtain ⟨href, name⟩ := e
    cases hq : (query_ons_api (net href)).2 with
    | error msg =>
      refine ⟨1, ?_⟩
      simp [fetch_code_lists, hq, List.take_succ_cons]
    | ok doc =>
      obtain ⟨n, hn⟩ :=
        ih ⟨st.requested ++ [href], st.written ++ [(dimPath name, name)], st.error⟩
      refine ⟨n + 1, ?_⟩
      simp only [fetch_code_lists, hq]
      rw [hn]
      simp [List.take_succ_cons, List.append_assoc]

theorem fetch_code_lists_written (net : String → Option Nat → HttpResult (ListDoc CodeItem)) :
    ∀ (entries : List (String × String)) (st : FetchState),
      st.written.all (fun w => w.1 == dimPath w.2) = true →
      ((fetch_code_lists net entries st).written).all (fun w => w.1 == dimPath w.2) = true := by
  intro entries
  induction entries with
  | nil => intro st h; exact h
  | cons e rest ih =>
    intro st h
    obtain ⟨href, name⟩ := e
    cases hq : (query_ons_api (net href)).2 with
    | error msg => simp only [fetch_code_lists, hq]; exact h
    | ok doc =>
      simp only [fetch_code_lists, hq]
      refine ih _ ?_
      simp only [List.all_append, h, List.all_cons, List.all_nil, Bool.and_true,
        Bool.true_and]
      simp

/-- C4: deduplication is total.  `drop_duplicates(subset = "id")` on the
unioned versions table leaves no version id twice; the `all_code_hrefs` dict
accumulates (codes href, dimension name) pairs with no duplicate keys; the
final fetch loop requests only dict keys — each at most once — and every
file it writes lies at the path determined by its dimension name alone, so
at most one output file per dimension name can exist. -/
theorem versions_and_code_hrefs_dedup_total
    (versionRows : List VersionRow) (dicts : List LinksCell) (log0 : List String)
    (net : String → Option Nat → HttpResult (ListDoc CodeItem)) :
    ((dedupByKey VersionRow.id versionRows).map VersionRow.id).Nodup ∧
    (((collect_code_hrefs dicts [] log0).1).map Prod.fst).Nodup ∧
    ((fetch_code_lists net (collect_code_hrefs dicts [] log0).1 initFetch).requested).Nodup ∧
    ((fetch_code_lists net (collect_code_hrefs dicts [] log0).1 initFetch).written).all
      (fun w => w.1 == dimPath w.2) = true := by
  have hkeys := collect_code_hrefs_keys_nodup dicts [] log0 (by simp)
  refine ⟨dedupByKey_key_nodup VersionRow.id versionRows, hkeys, ?_, ?_⟩
  · obtain ⟨n, hn⟩ := fetch_code_lists_requested net (collect_code_hrefs dicts [] log0).1 initFetch
    rw [hn]
    simp only [initFetch, List.nil_append]
    exact hkeys.sublist (List.take_sublist n _)
  · exact fetch_code_lists_written net _ initFetch (by simp [initFetch])

/-! ### Inflation download -/

/-- Python iterates a *string* argument character by character, so
`"|".join(search_terms)` with `search_terms = "inflation"` — the `str` that
`download_inflation` passes — joins its individual letters. -/
def charTerms (s : String) : List String := s.toList.map (fun c => String.mk [c])

/-- The `downloads` object of a version document; the `csv` entry is
identified with its `href`. -/
structure DownloadsCell where
  csv : Option String
deriving DecidableEq, Repr

/-- The version document behind `latest_version.href`: the code reads only
`.get("downloads").get("csv").get("href")`. -/
structure VersionDoc where
  downloads : Option DownloadsCell
deriving DecidableEq, Repr

/-- Observable outcome of `download_inflation`: the dataset-endpoint request
trace, the version-document URLs requested, the file URLs requested, the
files written, and the exception raised, if any. -/
structure InflResult where
  datasetRequests : List (Option Nat)
  versionRequests : List String
  fileRequests : List String
  written : List (String × String)
  error : Option String
deriving DecidableEq, Repr

/-- Embedding of `download_inflation`
(src/get_data/initial_api_extraction.py, lines 279-342).  `netDatasets`
serves the `{endpoint}/datasets` requests, `netUrl` the `latest_version`
href, `netFile` the csv download.  The dataset table returned by
`get_ashe_datasets` (queried with the characters of `"inflation"`) is
filtered to `dataset_id`; `links.latest_version.tolist()[0]["href"]` raises
`IndexError` on an empty selection and `TypeError` on a `NaN` cell; the
version document's `downloads.csv.href` is extracted (a missing level raises
`AttributeError`), `find_project_root()` resolves the save root, and the csv
is fetched and written to `{root}/bronze_files/cpih.csv`. -/
def download_inflation (netDatasets : Option Nat → HttpResult (ListDoc DatasetRow))
    (netUrl : String → HttpResult VersionDoc) (netFile : String → HttpResult String)
    (fs : List String → String → Bool) (start : List String)
    (dataset_id : String) : InflResult :=
  let q := get_ashe_datasets netDatasets (charTerms "inflation")
  match q.2 with
  | .error e => ⟨q.1, [], [], [], some e⟩
  | .ok rows =>
    let cpih := rows.filter (fun r => r.id == dataset_id)
    match cpih.head? with
    | none => ⟨q.1, [], [], [], some "IndexError"⟩
    | some r0 =>
      match r0.latest_version_href with
      | none => ⟨q.1, [], [], [], some "TypeError"⟩
      | some latest_url =>
        match netUrl latest_url with
        | .connErr => ⟨q.1, [latest_url], [], [], some
            "Failed to connect to ONS API endpoint for latest version. Please check the URL or your internet connection."⟩
        | .response status doc =>
          if status != 200 then
            ⟨q.1, [latest_url], [], [],
              some "Error: non-200 status code when requesting latest version."⟩
          else
            match doc.downloads with
            | none => ⟨q.1, [latest_url], [], [], some "AttributeError"⟩
            | some dl =>
              match dl.csv with
              | none => ⟨q.1, [latest_url], [], [], some "AttributeError"⟩
              | some download_url =>
                match find_project_root fs start "bronze_files" with
                | .error e => ⟨q.1, [latest_url], [], [], some (pyErrMsg e)⟩
                | .ok root =>
                  match netFile download_url with
                  | .connErr => ⟨q.1, [latest_url], [download_url], [], some
                      "Failed to connect to ONS API endpoint for CPIH csv download. Please check the URL or your internet connection."⟩
                  | .response s2 body =>
                    if s2 == 200 then
                      ⟨q.1, [latest_url], [download_url],
                        [(joinSlash root ++ "/bronze_files/cpih.csv", body)], none⟩
                    else
                      ⟨q.1, [latest_url], [download_url], [], some
                        "Failed to connect to ONS API endpoint for CPIH csv download. Please check the URL or your internet connection."⟩

/-- The inflation dataset row of the C6 evaluation. -/
def cpihDatasetRow : DatasetRow :=
  { id := "cpih01", keywords := ["inflation"], latest_version_href := some "L" }

/-- The datasets endpoint of the C6 evaluation. -/
def cpihEndpoint : OnsEndpoint DatasetRow :=
  { allItems := [cpihDatasetRow], defaultLimit := 20 }

/-- Version-document net of the C6 evaluation: every URL answers with
`downloads.csv.href = U`. -/
def c6netUrl : String → HttpResult VersionDoc := fun _ =>
  .response 200 { downloads := some { csv := some "U" } }

/-- File net of the C6 evaluation: every download would succeed. -/
def c6netFile : String → HttpResult String := fun _ => .response 200 "CPIHBYTES"

/-- C6: evaluated on a dataset whose `latest_version.href` (`L`) answers
with `downloads.csv.href = U` and whose download would succeed,
`download_inflation` requests `L` — and enumerates no editions or versions —
but then raises `NameError` inside `find_project_root` (undefined name
`marker`): `U` is never requested and `bronze_files/cpih.csv` is never
written. -/
theorem download_inflation_nameerror_no_write :
    download_inflation cpihEndpoint.net c6netUrl c6netFile (fun _ _ => false)
      ["root", "proj", "src", "get_data", "file.py"] "cpih01"
      = ⟨[none, some 1], ["L"], [], [], some (pyErrMsg (PyErr.nameError "marker"))⟩ := rfl

/-! ### Silver transformation of the cpih table -/

/-- A staged row of the raw cpih csv: the columns the transformation block
reads (src/transform/load_silver_data.py, lines 38-44). -/
structure CpihRawRow where
  mmm_yy : String
  cpih1dim1aggid : String
  aggregate : String
  geography : String
  time : String
  value : String
deriving DecidableEq, Repr

/-- A pandas column key: frame columns are labelled by strings, but Python
lets any hashable value index a frame — `df[False]` looks up the label
`False`. -/
inductive PandasKey where
  | str : String → PandasKey
  | bool : Bool → PandasKey
deriving DecidableEq, Repr

/-- The column labels of the staged cpih frame once `month_start` has been
assigned. -/
def cpihColumns : List String :=
  ["mmm-yy", "cpih1dim1aggid", "Aggregate", "Geography", "Time", "value", "month_start"]

/-- Column selection `df[key]` on the cpih frame: a string key is looked up
among the labels and raises `KeyError` when absent; a Boolean key is never
among the string labels, so it always raises `KeyError`. -/
def cpihColSelect (key : PandasKey) : Except String Nat :=
  match key with
  | .str s =>
    match cpihColumns.indexOf? s with
    | some i => .ok i
    | none => .error "KeyError"
  | .bool _ => .error "KeyError: False"

/-- Month abbreviations recognised by `%b`. -/
def monthAbbrevs : List String :=
  ["jan", "feb", "mar", "apr", "may", "jun", "jul", "aug", "sep", "oct", "nov", "dec"]

/-- Parse a nonempty all-digit character list as a decimal number. -/
def digitsToNat : List Char → Option Nat → Option Nat
  | [], acc => acc
  | c :: cs, acc =>
    if 48 ≤ c.toNat && c.toNat ≤ 57 then
      digitsToNat cs (some ((acc.getD 0) * 10 + (c.toNat - 48)))
    else none

/-- `pd.to_datetime(cell, format = "%b-%y")`: month abbreviation, dash,
two-digit year (0-68 map into the 2000s, as pandas does); the result is a
(year, month) pair. -/
def parseMmmYy (s : String) : Except String (Nat × Nat) :=
  match (splitOnChar '-' s.toList).map (fun cs => String.mk cs) with
  | [mon, yr] =>
    match monthAbbrevs.indexOf? (String.mk (mon.toList.map Char.toLower)) with
    | some i =>
      match digitsToNat yr.toList none with
      | some y =>
        .ok (if y ≤ 68 then 2000 + y else 1900 + y, i + 1)
      | none => .error "ValueError: time data does not match format"
    | none => .error "ValueError: time data does not match format"
  | _ => .error "ValueError: time data does not match format"

/-- Embedding of the cpih block of `src/transform/load_silver_data.py`
(lines 38-44): assign the parsed `month_start` column, then evaluate
`dim_dict["cpih"][dim_dict["cpih"]["cpih1dim1aggid" == "CP00"]]`.  Python
evaluates the comparison `"cpih1dim1aggid" == "CP00"` — which is `False` —
before any indexing takes place, so the inner subscript looks up the column
labelled `False`.  The CP00 row filter, the column drops and the
`month_start` sort of the remaining source lines are never reached. -/
def cpih_silver_transform (rows : List CpihRawRow) :
    Except String (List (CpihRawRow × (Nat × Nat))) := do
  let withMonth ← rows.mapM (fun r => (parseMmmYy r.mmm_yy).map (fun d => (r, d)))
  match cpihColSelect (PandasKey.bool ("cpih1dim1aggid" == "CP00")) with
  | .error e => .error e
  | .ok _ =>
    .ok withMonth

/-- A well-formed staged cpih row carrying the canonical aggregate code. -/
def cpihRawSample : CpihRawRow :=
  { mmm_yy := "Jan-21", cpih1dim1aggid := "CP00", aggregate := "Overall Index",
    geography := "United Kingdom", time := "Jan-21", value := "108.7" }

/-- C8: on a well-formed staged cpih table the silver transform raises
`KeyError` instead of filtering the rows to `CP00`: the subscript evaluates
the Python expression `"cpih1dim1aggid" == "CP00"` to `False` and indexes
the frame with the Boolean label `False`, which is not a column of the
frame. -/
theorem cpih_transform_false_key_error :
    cpih_silver_transform [cpihRawSample] = .error "KeyError: False" := rfl

end Ashe
